import Mathlib

/-!
Verification development for the counter service (`app/counter_service.py`).

The service keeps a single integer counter in a JSON file on disk:

* `_read_counter(path)` returns 0 when the file is absent; otherwise it parses
  the file as JSON, applies Python `int()` to `data.get("counter", 0)`, and on
  any exception logs an `event=read_failed` warning and returns 0.
* `_write_counter(path, value)` dumps `{"counter": value}` to the sibling
  temporary path `path.with_suffix(".tmp")` and then atomically replaces the
  target with it.
* `_exclusive_file_lock(path)` opens `path.with_suffix(".lock")` in mode `"w"`
  (which truncates that file), takes a blocking exclusive `flock`, and releases
  the lock and closes the handle in a `finally` block.
* the `POST /` handler takes the lock, reads, adds one, writes, and returns the
  written value.

Everything below is a shallow embedding of this code: the filesystem is a map
from paths to optional file contents, JSON documents are an inductive value
type, and the concurrent increment protocol is a small-step transition system.
-/

/-! ## Paths

Paths are modelled as a directory part plus a final component, which is all
`pathlib` operations used by the code (`with_suffix`, `parent`) look at.
-/

/-- A filesystem path, split as `pathlib` sees it: the directory part and the
final component (the name). -/
structure PyPath where
  parent : String
  name : String
deriving DecidableEq

/-- Predicate used to scan a name for its extension: true for characters other
than the dot. -/
def notDot (c : Char) : Bool := c != '.'

/-- Split a final path component into `(stem, suffix)` following `pathlib`:
the suffix starts at the last dot, provided that dot is neither the first nor
the last character of the name; otherwise the suffix is empty. -/
def splitName (cs : List Char) : List Char × List Char :=
  if List.dropWhile notDot cs.reverse = [] then (cs, [])
  else if List.takeWhile notDot cs.reverse = [] then (cs, [])
  else if (List.dropWhile notDot cs.reverse).tail = [] then (cs, [])
  else (((List.dropWhile notDot cs.reverse).tail).reverse,
        '.' :: (List.takeWhile notDot cs.reverse).reverse)

/-- `pathlib`'s `with_suffix` on a final component: drop the old suffix if
there is one, then append the new suffix. -/
def withSuffixName (cs suf : List Char) : List Char :=
  if (splitName cs).2 = [] then cs ++ suf else (splitName cs).1 ++ suf

/-- The suffix (extension) of a name, as a string. -/
def nameSuffixS (s : String) : String := String.mk (splitName s.data).2

/-- The stem of a name, as a string. -/
def nameStemS (s : String) : String := String.mk (splitName s.data).1

/-- `path.with_suffix(suf)`: same directory, new extension on the name. -/
def withSuffixP (p : PyPath) (suf : String) : PyPath :=
  ⟨p.parent, String.mk (withSuffixName p.name.data suf.data)⟩

/-- The lock handle path used by `_exclusive_file_lock`
(`target_path.with_suffix(".lock")`, source line 52). -/
def lockPathOf (p : PyPath) : PyPath := withSuffixP p ".lock"

/-- The temporary path used by `_write_counter`
(`path.with_suffix(".tmp")`, source line 45). -/
def tmpPathOf (p : PyPath) : PyPath := withSuffixP p ".tmp"

/-! ## JSON values and Python `int()` -/

/-- Parsed JSON values as Python's `json` module produces them.  `int` holds
JSON integers, `num` holds non-integral JSON numbers as the exact rational the
parsed float denotes, and `obj` holds the parsed dictionary (keys distinct). -/
inductive JVal where
  | null
  | bool (b : Bool)
  | int (n : Int)
  | num (q : ℚ)
  | str (s : String)
  | arr (xs : List JVal)
  | obj (kvs : List (String × JVal))

/-- Dictionary lookup on a parsed JSON object. -/
def jget : List (String × JVal) → String → Option JVal
  | [], _ => none
  | (k, v) :: rest, key => if k = key then some v else jget rest key

/-- Python exceptions that can escape the body of `_read_counter`'s `try`. -/
inductive PyExc where
  | jsonDecodeError
  | attributeError
  | typeError
  | valueError
deriving DecidableEq

/-- Truncation toward zero, which is what Python `int()` does to a float. -/
def truncRat (q : ℚ) : Int := Int.tdiv q.num (q.den : Int)

/-- ASCII decimal digit test. -/
def isAsciiDigit (c : Char) : Bool := '0' ≤ c && c ≤ '9'

/-- Numeric value of an ASCII digit. -/
def digitVal (c : Char) : Nat := c.toNat - '0'.toNat

/-- Parse a nonempty all-digit character list as a natural number. -/
def digitsToNat (cs : List Char) : Option Nat :=
  if cs = [] then none
  else if cs.all isAsciiDigit then
    some (cs.foldl (fun a c => 10 * a + digitVal c) 0)
  else none

/-- Whitespace stripped by Python `int()` on strings (ASCII fragment). -/
def isSpaceChar (c : Char) : Bool :=
  c == ' ' || c == '\t' || c == '\n' || c == '\r' || c == '\x0b' || c == '\x0c'

/-- Python `int()` applied to a string: optional surrounding whitespace, an
optional sign, then decimal digits.  (Underscore separators and non-ASCII
digits, which CPython also accepts, are not modelled; no claim depends on
them.)  `none` means `int()` raises `ValueError`. -/
def pyIntOfStr (s : String) : Option Int :=
  match (s.data.dropWhile isSpaceChar).reverse.dropWhile isSpaceChar |>.reverse with
  | '+' :: rest => (digitsToNat rest).map Int.ofNat
  | '-' :: rest => (digitsToNat rest).map (fun n => -(n : Int))
  | cs => (digitsToNat cs).map Int.ofNat

/-- Python `int()` applied to a parsed JSON value: integers pass through,
booleans map to 0/1, floats truncate toward zero, strings are parsed, and
everything else raises (`TypeError` for `None`/lists/dicts, `ValueError` for
unparseable strings). -/
def pyIntExc : JVal → Except PyExc Int
  | .int n => .ok n
  | .bool b => .ok (if b then 1 else 0)
  | .num q => .ok (truncRat q)
  | .str s =>
    match pyIntOfStr s with
    | some n => .ok n
    | none => .error .valueError
  | .null => .error .typeError
  | .arr _ => .error .typeError
  | .obj _ => .error .typeError

/-! ## File contents and the filesystem -/

/-- Contents of a file as far as the service can observe them: a document that
parses as JSON, unparseable bytes, or a freshly truncated (empty) file, which
`json.load` also rejects. -/
inductive FileContent where
  | json (v : JVal)
  | malformed (raw : String)
  | truncated

/-- The JSON document `_write_counter` produces: `{"counter": value}`. -/
def counterDoc (v : Int) : FileContent := .json (.obj [("counter", .int v)])

/-- The filesystem: a map from paths to optional file contents. -/
def FS : Type := PyPath → Option FileContent

/-- Structured log events emitted by the service, reduced to their semantic
payload (the `pid`/`tid` fields added by `log_json` carry no information the
claims mention). -/
inductive LogEvent where
  | readFailed (path : PyPath) (e : PyExc)
  | increment (counter : Int)
deriving DecidableEq

/-! ## `_read_counter` -/

/-- `json.load` on a file's contents. -/
def jsonLoad : FileContent → Except PyExc JVal
  | .json v => .ok v
  | .malformed _ => .error .jsonDecodeError
  | .truncated => .error .jsonDecodeError

/-- `data.get("counter", 0)`: dictionary lookup with default 0 on a dict,
`AttributeError` on any other JSON value. -/
def getCounterField : JVal → Except PyExc JVal
  | .obj kvs => .ok ((jget kvs "counter").getD (.int 0))
  | _ => .error .attributeError

/-- The body of `_read_counter`'s `try` block on an existing file:
`int(json.load(file).get("counter", 0))`. -/
def readCounterAttempt (c : FileContent) : Except PyExc Int :=
  match jsonLoad c with
  | .error e => .error e
  | .ok data =>
    match getCounterField data with
    | .error e => .error e
    | .ok jv => pyIntExc jv

/-- `_read_counter(path)` (source lines 30-40): 0 for a missing file;
otherwise the `try` body's value, or — when it raises — a logged
`read_failed` warning and 0.  The second component collects emitted log
events. -/
def readCounterFull (fs : FS) (p : PyPath) : Int × List LogEvent :=
  match fs p with
  | none => (0, [])
  | some c =>
    match readCounterAttempt c with
    | .ok n => (n, [])
    | .error e => (0, [.readFailed p e])

/-- The integer `_read_counter` returns. -/
def readCounterVal (fs : FS) (p : PyPath) : Int := (readCounterFull fs p).1

/-! ## `_write_counter` -/

/-- Create-or-truncate a file, as `open(path, "w")` does. -/
def truncateAt (fs : FS) (p0 : PyPath) : FS :=
  fun q => if q = p0 then some .truncated else fs q

/-- The filesystem after each primitive step of `_write_counter` (source
lines 42-48).  Stage 0: nothing yet (`mkdir` touches no files).  Stage 1: the
temporary path has been opened with mode `"w"`, truncating it.  Stage 2: the
full JSON document has been dumped to the temporary path.  Stage 3 and later:
`tmp_path.replace(path)` has atomically renamed the temporary file onto the
target. -/
def writeStage (fs : FS) (p : PyPath) (v : Int) : Nat → FS
  | 0 => fs
  | 1 => truncateAt fs (tmpPathOf p)
  | 2 => fun q => if q = tmpPathOf p then some (counterDoc v) else fs q
  | _ + 3 => fun q =>
      if q = p then some (counterDoc v)
      else if q = tmpPathOf p then none
      else fs q

/-- `_write_counter(path, value)` run to completion: the target holds
`{"counter": value}` and the temporary name is gone. -/
def writeCounter (fs : FS) (p : PyPath) (v : Int) : FS :=
  fun q =>
    if q = p then some (counterDoc v)
    else if q = tmpPathOf p then none
    else fs q

/-! ## The increment operation (`POST /`, source lines 77-84) -/

/-- The critical section of the `POST /` handler: read the current value, add
one, write it back.  Returns the new filesystem, the value returned to the
caller, and the log events emitted (read warnings, then the `increment` info
event). -/
def increment (fs : FS) (p : PyPath) : FS × Int × List LogEvent :=
  (writeCounter fs p ((readCounterFull fs p).1 + 1),
   (readCounterFull fs p).1 + 1,
   (readCounterFull fs p).2 ++ [LogEvent.increment ((readCounterFull fs p).1 + 1)])

/-- The full `POST /` handler: entering `_exclusive_file_lock` opens the lock
path with mode `"w"`, truncating it, before the critical section runs. -/
def postIncrement (fs : FS) (p : PyPath) : FS × Int × List LogEvent :=
  increment (truncateAt fs (lockPathOf p)) p

/-! ## The exclusive file lock (`_exclusive_file_lock`, source lines 50-63) -/

/-- State of the lock handle `lock_f`. -/
structure LockHandleState where
  isOpen : Bool
  locked : Bool
deriving DecidableEq

/-- Primitive operations performed on the lock handle. -/
inductive LockAction where
  | openHandle
  | flockEx
  | flockUn
  | closeHandle
deriving DecidableEq

/-- Effect of each primitive operation on the handle state.  Closing the file
descriptor is modelled as only closing it; the implicit release of an `flock`
on close is deliberately not modelled, so that the theorems genuinely depend
on the explicit `flock(LOCK_UN)` in the `finally` block. -/
def applyLockAction : LockHandleState → LockAction → LockHandleState
  | st, .openHandle => ⟨true, st.locked⟩
  | st, .flockEx => ⟨st.isOpen, true⟩
  | st, .flockUn => ⟨st.isOpen, false⟩
  | st, .closeHandle => ⟨false, st.locked⟩

/-- Outcome of the body executed under the context manager: a normal return
or a propagating exception. -/
inductive BodyOutcome (α : Type) where
  | ok (a : α)
  | raised (e : PyExc)

/-- Running `with _exclusive_file_lock(path): body`: the handle is opened and
locked before the body, and the `finally` block (unlock, then close under a
nested `try/finally`) runs whether the body returns or raises; the body's
outcome is then propagated unchanged.  Returns the propagated outcome and the
sequence of primitive operations performed on the handle. -/
def exclusiveFileLockRun {α : Type} (body : BodyOutcome α) :
    BodyOutcome α × List LockAction :=
  (body,
   [LockAction.openHandle, LockAction.flockEx]
     ++ [LockAction.flockUn, LockAction.closeHandle])

/-! ## Concurrent increments

Each process repeatedly executes the `POST /` handler: acquire the exclusive
lock (which opens the lock path with mode `"w"`, truncating it), read the
counter, write the incremented value, release the lock.  The lock is modelled
as a single cross-process mutex, which is faithful to a blocking exclusive
`flock` as long as the lock file itself is never replaced — true whenever the
lock path differs from the counter path, since `_write_counter` only touches
the counter path and its `.tmp` sibling.
-/

/-- Program counter of one process running increments: `idle r` (not in the
critical section, `r` increments still to do), `haveLock r` (lock acquired),
`haveVal r v` (read the value `v`), `wrote r` (written; `r` increments remain
after this one). -/
inductive ProcState where
  | idle (r : Nat)
  | haveLock (r : Nat)
  | haveVal (r : Nat) (v : Int)
  | wrote (r : Nat)
deriving DecidableEq

/-- Global state: the shared filesystem, the holder of the exclusive lock on
the counter's lock path, and every process's program counter. -/
structure SysState (P : Nat) where
  fs : FS
  lockHolder : Option (Fin P)
  procs : Fin P → ProcState

/-- Small-step transition relation for `P` processes incrementing the counter
at `path`.  `acquire` opens (truncating) the lock file and takes the mutex;
`readv` runs `_read_counter`; `writev` runs `_write_counter` on the read value
plus one; `release` leaves the critical section. -/
inductive Step (path : PyPath) {P : Nat} : SysState P → SysState P → Prop where
  | acquire (s : SysState P) (p : Fin P) (r : Nat)
      (hp : s.procs p = .idle (r + 1)) (hl : s.lockHolder = none) :
      Step path s ⟨truncateAt s.fs (lockPathOf path), some p,
        Function.update s.procs p (.haveLock (r + 1))⟩
  | readv (s : SysState P) (p : Fin P) (r : Nat)
      (hp : s.procs p = .haveLock r) :
      Step path s ⟨s.fs, s.lockHolder,
        Function.update s.procs p (.haveVal r (readCounterVal s.fs path))⟩
  | writev (s : SysState P) (p : Fin P) (r : Nat) (v : Int)
      (hp : s.procs p = .haveVal (r + 1) v) :
      Step path s ⟨writeCounter s.fs path (v + 1), s.lockHolder,
        Function.update s.procs p (.wrote r)⟩
  | release (s : SysState P) (p : Fin P) (r : Nat)
      (hp : s.procs p = .wrote r) (hl : s.lockHolder = some p) :
      Step path s ⟨s.fs, none, Function.update s.procs p (.idle r)⟩

/-- Reachability under any interleaving of process steps. -/
def Reachable (path : PyPath) {P : Nat} : SysState P → SysState P → Prop :=
  Relation.ReflTransGen (Step path)

/-- Number of writes a process will still perform. -/
def pendingOf : ProcState → Int
  | .idle r => r
  | .haveLock r => r
  | .haveVal r _ => r
  | .wrote r => r

/-- Total number of writes still to be performed across all processes. -/
def pendingSum {P : Nat} (procs : Fin P → ProcState) : Int :=
  ∑ q, pendingOf (procs q)

/-- A process is inside the critical section. -/
def inCS : ProcState → Prop
  | .idle _ => False
  | _ => True

/-- Inductive invariant of the protocol: the persisted value plus the writes
still pending equals the grand total, only the lock holder is in the critical
section, and a process that has read holds a snapshot equal to the currently
persisted value. -/
structure IncrInv (path : PyPath) (total : Int) {P : Nat} (s : SysState P) : Prop where
  sum_eq : readCounterVal s.fs path + pendingSum s.procs = total
  lock_of_cs : ∀ q, inCS (s.procs q) → s.lockHolder = some q
  val_eq : ∀ q r v, s.procs q = .haveVal r v → v = readCounterVal s.fs path

/-! ## Spec-side definitions used to state amended claims -/

/-- The fail-open read policy as amended: a file that is malformed JSON or
whose top-level value is not an object yields 0 with a logged `read_failed`
warning carrying the path and the error; an object without a `counter` field
yields 0 silently (the default 0 makes `int()` succeed, so nothing is
logged); an object whose `counter` field `int()` accepts yields the converted
integer silently; an object whose `counter` field `int()` rejects yields 0
with a logged warning. -/
def readResultSpec (p : PyPath) : Option FileContent → Int × List LogEvent
  | none => (0, [])
  | some (.malformed _) => (0, [.readFailed p .jsonDecodeError])
  | some .truncated => (0, [.readFailed p .jsonDecodeError])
  | some (.json (.obj kvs)) =>
    match jget kvs "counter" with
    | none => (0, [])
    | some jv =>
      match pyIntExc jv with
      | .ok n => (n, [])
      | .error e => (0, [.readFailed p e])
  | some (.json _) => (0, [.readFailed p .attributeError])

/-- The stored content does not carry a negative counter: either the file is
absent, unreadable, lacks the field, or `int()` of the field is
non-negative. -/
def contentCounterNonneg : Option FileContent → Prop
  | some (.json (.obj kvs)) =>
    match jget kvs "counter" with
    | some jv =>
      match pyIntExc jv with
      | .ok n => 0 ≤ n
      | .error _ => True
    | none => True
  | _ => True

/-! ## Concrete states used by witnesses and counterexamples -/

/-- The default counter path of the service (`/data/counter.json`). -/
def dataCounterPath : PyPath := ⟨"/data", "counter.json"⟩

/-- The empty filesystem. -/
def fsEmpty : FS := fun _ => none

/-- A counter path whose extension is already `.lock`, so that the derived
lock handle path coincides with the counter path itself. -/
def lockySelfPath : PyPath := ⟨"/data", "counter.lock"⟩

/-- A counter path whose extension is already `.tmp`, so that the derived
temporary path coincides with the counter path itself. -/
def tmpSelfPath : PyPath := ⟨"/data", "counter.tmp"⟩

/-- Filesystem holding `{"counter": 5}` at `lockySelfPath`. -/
def dC0fs : FS := fun q => if q = lockySelfPath then some (counterDoc 5) else none

/-- Initial state for the C1 counterexample: one process, one increment to
perform, counter value 5 persisted at a path ending in `.lock`. -/
def dC0 : SysState 1 := ⟨dC0fs, none, fun _ => .idle 1⟩

/-- After `acquire`: opening the lock handle truncated the counter file. -/
def dC1 : SysState 1 :=
  ⟨truncateAt dC0.fs (lockPathOf lockySelfPath), some 0,
   Function.update dC0.procs 0 (.haveLock 1)⟩

/-- After `readv`: the process read the truncated file, obtaining 0. -/
def dC2 : SysState 1 :=
  ⟨dC1.fs, dC1.lockHolder,
   Function.update dC1.procs 0 (.haveVal 1 (readCounterVal dC1.fs lockySelfPath))⟩

/-- After `writev`: the process wrote 0 + 1. -/
def dC3 : SysState 1 :=
  ⟨writeCounter dC2.fs lockySelfPath (0 + 1), dC2.lockHolder,
   Function.update dC2.procs 0 (.wrote 0)⟩

/-- After `release`: terminal state of the C1 counterexample run. -/
def dC4 : SysState 1 :=
  ⟨dC3.fs, none, Function.update dC3.procs 0 (.idle 0)⟩

/-- Initial state for the C1 witness: one process, one increment, empty
filesystem at the default counter path. -/
def cwS0 : SysState 1 := ⟨fsEmpty, none, fun _ => .idle 1⟩

/-- C1 witness run, after `acquire`. -/
def cwS1 : SysState 1 :=
  ⟨truncateAt cwS0.fs (lockPathOf dataCounterPath), some 0,
   Function.update cwS0.procs 0 (.haveLock 1)⟩

/-- C1 witness run, after `readv`. -/
def cwS2 : SysState 1 :=
  ⟨cwS1.fs, cwS1.lockHolder,
   Function.update cwS1.procs 0 (.haveVal 1 (readCounterVal cwS1.fs dataCounterPath))⟩

/-- C1 witness run, after `writev`. -/
def cwS3 : SysState 1 :=
  ⟨writeCounter cwS2.fs dataCounterPath (0 + 1), cwS2.lockHolder,
   Function.update cwS2.procs 0 (.wrote 0)⟩

/-- C1 witness run, terminal state. -/
def cwS4 : SysState 1 :=
  ⟨cwS3.fs, none, Function.update cwS3.procs 0 (.idle 0)⟩

/-- Filesystem whose counter file holds `{"counter": "7"}` — a non-integer
`counter` field that Python `int()` happily converts. -/
def c5fs : FS :=
  fun q => if q = dataCounterPath then some (.json (.obj [("counter", .str "7")])) else none

/-- Filesystem holding `{"counter": 5}` at `tmpSelfPath`, for the C7
counterexample. -/
def c7fs : FS := fun q => if q = tmpSelfPath then some (counterDoc 5) else none

/-- Filesystem whose counter file holds `{"counter": -5}`, for the C9
counterexample. -/
def c9fs : FS :=
  fun q => if q = dataCounterPath then some (.json (.obj [("counter", .int (-5))])) else none

/-- Three counter files whose `counter` fields are a digit string, a boolean
and a float, for the C10 witness. -/
def c10fs : FS := fun q =>
  if q = ⟨"/data", "a.json"⟩ then some (.json (.obj [("counter", .str "42")]))
  else if q = ⟨"/data", "b.json"⟩ then some (.json (.obj [("counter", .bool true)]))
  else if q = ⟨"/data", "c.json"⟩ then some (.json (.obj [("counter", .num (mkRat 39 10))]))
  else none

/-! ## Helper lemmas: names and suffixes -/

theorem takeWhile_append_stop (xs zs : List Char)
    (hx : ∀ x ∈ xs, notDot x = true) :
    List.takeWhile notDot (xs ++ '.' :: zs) = xs := by
  induction xs with
  | nil => simp [List.takeWhile, notDot]
  | cons a as ih =>
    have ha : notDot a = true := hx a (by simp)
    simp only [List.cons_append, List.takeWhile_cons, ha, if_true]
    rw [ih (fun x hxx => hx x (by simp [hxx]))]

theorem dropWhile_append_stop (xs zs : List Char)
    (hx : ∀ x ∈ xs, notDot x = true) :
    List.dropWhile notDot (xs ++ '.' :: zs) = '.' :: zs := by
  induction xs with
  | nil => simp [List.dropWhile, notDot]
  | cons a as ih =>
    have ha : notDot a = true := hx a (by simp)
    simp only [List.cons_append, List.dropWhile_cons, ha, if_true]
    exact ih (fun x hxx => hx x (by simp [hxx]))

theorem splitName_append_ext (base ext' : List Char) (hb : base ≠ []) (he : ext' ≠ [])
    (hd : ∀ x ∈ ext', notDot x = true) :
    splitName (base ++ '.' :: ext') = (base, '.' :: ext') := by
  have hdrev : ∀ x ∈ ext'.reverse, notDot x = true := by
    intro x hx
    exact hd x (List.mem_reverse.mp hx)
  have hrev : (base ++ '.' :: ext').reverse = ext'.reverse ++ '.' :: base.reverse := by
    simp
  have ht : List.takeWhile notDot (base ++ '.' :: ext').reverse = ext'.reverse := by
    rw [hrev]; exact takeWhile_append_stop _ _ hdrev
  have hdp : List.dropWhile notDot (base ++ '.' :: ext').reverse = '.' :: base.reverse := by
    rw [hrev]; exact dropWhile_append_stop _ _ hdrev
  have h1 : ext'.reverse ≠ [] := by simpa using he
  have h2 : base.reverse ≠ [] := by simpa using hb
  unfold splitName
  rw [ht, hdp]
  simp [h1, h2]

theorem splitName_snd_nil (cs : List Char) (h : (splitName cs).2 = []) :
    (splitName cs).1 = cs := by
  unfold splitName at *
  split_ifs at * <;> simp_all

theorem splitName_fst_ne_nil (cs : List Char) (h : (splitName cs).2 ≠ []) :
    (splitName cs).1 ≠ [] := by
  unfold splitName at *
  split_ifs at * with h1 h2 h3
  · simp_all
  · simp_all
  · simp_all
  · simpa using h3

theorem splitName_withSuffixName (cs suf : List Char) (hcs : cs ≠ [])
    (hsufne : suf ≠ []) (hsufd : ∀ x ∈ suf, notDot x = true) :
    splitName (withSuffixName cs ('.' :: suf)) = ((splitName cs).1, '.' :: suf) := by
  unfold withSuffixName
  by_cases h2 : (splitName cs).2 = []
  · rw [if_pos h2, splitName_append_ext cs suf hcs hsufne hsufd,
      splitName_snd_nil cs h2]
  · rw [if_neg h2,
      splitName_append_ext _ suf (splitName_fst_ne_nil cs h2) hsufne hsufd]

/-! ## Helper lemmas: the store -/

theorem read_after_write (fs : FS) (p : PyPath) (v : Int) :
    readCounterFull (writeCounter fs p v) p = (v, []) := by
  unfold readCounterFull writeCounter
  simp [readCounterAttempt, jsonLoad, getCounterField, counterDoc, jget, pyIntExc]

theorem readCounterVal_after_write (fs : FS) (p : PyPath) (v : Int) :
    readCounterVal (writeCounter fs p v) p = v := by
  unfold readCounterVal
  rw [read_after_write]

theorem readCounterFull_congr {fs fs' : FS} (p : PyPath) (h : fs p = fs' p) :
    readCounterFull fs p = readCounterFull fs' p := by
  unfold readCounterFull
  rw [h]

theorem readCounterVal_truncate_other (fs : FS) (p q0 : PyPath) (h : q0 ≠ p) :
    readCounterVal (truncateAt fs q0) p = readCounterVal fs p := by
  have hq : truncateAt fs q0 p = fs p := by
    unfold truncateAt
    rw [if_neg (fun hh => h hh.symm)]
  unfold readCounterVal
  rw [readCounterFull_congr p hq]

/-! ## Helper lemmas: the concurrency invariant -/

theorem pendingSum_update {P : Nat} (procs : Fin P → ProcState) (p : Fin P)
    (st : ProcState) :
    pendingSum (Function.update procs p st) + pendingOf (procs p)
      = pendingSum procs + pendingOf st := by
  have h1 : pendingSum (Function.update procs p st)
      = ∑ q, Function.update (fun q => pendingOf (procs q)) p (pendingOf st) q := by
    unfold pendingSum
    refine Finset.sum_congr rfl (fun q _ => ?_)
    by_cases hqp : q = p
    · subst hqp; simp
    · rw [Function.update_noteq hqp, Function.update_noteq hqp]
  rw [h1, Finset.sum_update_of_mem (Finset.mem_univ p), Finset.sdiff_singleton_eq_erase]
  unfold pendingSum
  rw [← Finset.add_sum_erase _ (fun q => pendingOf (procs q)) (Finset.mem_univ p)]
  ring

theorem inv_step {P : Nat} {path : PyPath} {total : Int} {s s' : SysState P}
    (hlk : lockPathOf path ≠ path)
    (hs : IncrInv path total s) (h : Step path s s') : IncrInv path total s' := by
  cases h with
  | acquire p r hp hl =>
    refine ⟨?_, ?_, ?_⟩
    · have hsum := pendingSum_update s.procs p (.haveLock (r + 1))
      rw [hp] at hsum
      have h0 := hs.sum_eq
      have hrd : readCounterVal (truncateAt s.fs (lockPathOf path)) path
          = readCounterVal s.fs path := readCounterVal_truncate_other _ _ _ hlk
      simp only [pendingOf] at hsum
      dsimp only
      rw [hrd]
      linarith
    · intro q hq
      dsimp only at hq ⊢
      by_cases hqp : q = p
      · subst hqp; rfl
      · rw [Function.update_noteq hqp] at hq
        have hcontra := hs.lock_of_cs q hq
        rw [hl] at hcontra
        exact absurd hcontra (by simp)
    · intro q r' v' h'
      dsimp only at h' ⊢
      by_cases hqp : q = p
      · subst hqp
        rw [Function.update_same] at h'
        exact absurd h' (by simp)
      · rw [Function.update_noteq hqp] at h'
        have := hs.val_eq q r' v' h'
        rw [readCounterVal_truncate_other _ _ _ hlk]
        exact this
  | readv p r hp =>
    refine ⟨?_, ?_, ?_⟩
    · have hsum := pendingSum_update s.procs p (.haveVal r (readCounterVal s.fs path))
      rw [hp] at hsum
      have h0 := hs.sum_eq
      simp only [pendingOf] at hsum
      dsimp only
      linarith
    · intro q hq
      dsimp only at hq ⊢
      by_cases hqp : q = p
      · subst hqp
        rw [Function.update_same] at hq
        exact hs.lock_of_cs q (by rw [hp]; trivial)
      · rw [Function.update_noteq hqp] at hq
        exact hs.lock_of_cs q hq
    · intro q r' v' h'
      dsimp only at h' ⊢
      by_cases hqp : q = p
      · subst hqp
        rw [Function.update_same] at h'
        injection h' with h1 h2
        exact h2.symm
      · rw [Function.update_noteq hqp] at h'
        exact hs.val_eq q r' v' h'
  | writev p r v hp =>
    refine ⟨?_, ?_, ?_⟩
    · have hsum := pendingSum_update s.procs p (.wrote r)
      rw [hp] at hsum
      have h0 := hs.sum_eq
      have hv := hs.val_eq p (r + 1) v hp
      have hrd : readCounterVal (writeCounter s.fs path (v + 1)) path = v + 1 :=
        readCounterVal_after_write _ _ _
      simp only [pendingOf] at hsum
      dsimp only
      rw [hrd]
      push_cast at hsum
      linarith
    · intro q hq
      dsimp only at hq ⊢
      by_cases hqp : q = p
      · subst hqp
        rw [Function.update_same] at hq
        exact hs.lock_of_cs q (by rw [hp]; trivial)
      · rw [Function.update_noteq hqp] at hq
        exact hs.lock_of_cs q hq
    · intro q r' v' h'
      dsimp only at h' ⊢
      by_cases hqp : q = p
      · subst hqp
        rw [Function.update_same] at h'
        exact absurd h' (by simp)
      · rw [Function.update_noteq hqp] at h'
        have h1 := hs.lock_of_cs q (by rw [h']; trivial)
        have h2 := hs.lock_of_cs p (by rw [hp]; trivial)
        rw [h1] at h2
        exact absurd (Option.some.inj h2) hqp
  | release p r hp hl =>
    refine ⟨?_, ?_, ?_⟩
    · have hsum := pendingSum_update s.procs p (.idle r)
      rw [hp] at hsum
      have h0 := hs.sum_eq
      simp only [pendingOf] at hsum
      dsimp only
      linarith
    · intro q hq
      dsimp only at hq ⊢
      by_cases hqp : q = p
      · subst hqp
        rw [Function.update_same] at hq
        exact absurd hq (by simp [inCS])
      · rw [Function.update_noteq hqp] at hq
        have h1 := hs.lock_of_cs q hq
        rw [hl] at h1
        exact absurd (Option.some.inj h1).symm hqp
    · intro q r' v' h'
      dsimp only at h' ⊢
      by_cases hqp : q = p
      · subst hqp
        rw [Function.update_same] at h'
        exact absurd h' (by simp)
      · rw [Function.update_noteq hqp] at h'
        exact hs.val_eq q r' v' h'

theorem inv_reachable {P : Nat} {path : PyPath} {total : Int} {s0 s : SysState P}
    (hlk : lockPathOf path ≠ path)
    (h0 : IncrInv path total s0) (h : Reachable path s0 s) : IncrInv path total s := by
  induction h with
  | refl => exact h0
  | tail _ hstep ih => exact inv_step hlk ih hstep

/-! ## Helper lemmas: characterizing `_read_counter` -/

theorem read_eq_spec (fs : FS) (p : PyPath) :
    readCounterFull fs p = readResultSpec p (fs p) := by
  unfold readCounterFull readResultSpec
  cases hc : fs p with
  | none => rfl
  | some c =>
    cases c with
    | malformed raw => rfl
    | truncated => rfl
    | json v =>
      cases v with
      | null => rfl
      | bool b => rfl
      | int n => rfl
      | num q => rfl
      | str s => rfl
      | arr xs => rfl
      | obj kvs =>
        simp only [readCounterAttempt, jsonLoad, getCounterField]
        cases hg : jget kvs "counter" with
        | none => simp [hg, pyIntExc]
        | some jv =>
          cases hpi : pyIntExc jv with
          | ok n => simp [hg, hpi]
          | error e => simp [hg, hpi]

theorem read_nonneg_of_content (fs : FS) (p : PyPath)
    (h : contentCounterNonneg (fs p)) : 0 ≤ readCounterVal fs p := by
  unfold readCounterVal
  rw [read_eq_spec]
  unfold contentCounterNonneg at h
  unfold readResultSpec
  cases hc : fs p with
  | none => simp
  | some c =>
    rw [hc] at h
    cases c with
    | malformed raw => simp
    | truncated => simp
    | json v =>
      cases v with
      | null => simp
      | bool b => simp
      | int n => simp
      | num q => simp
      | str s => simp
      | arr xs => simp
      | obj kvs =>
        cases hg : jget kvs "counter" with
        | none => simp [hg]
        | some jv =>
          cases hpi : pyIntExc jv with
          | ok n =>
            simp only [hg, hpi] at h
            simp [hg, hpi]
            simpa using h
          | error e => simp [hg, hpi]

/-! ## Claim theorems -/

/-- Claim C2: a successful `POST /` returns the post-increment count — the
value read from the store inside the critical section plus one — and that
same value is persisted to the counter file by the time the response is
produced.  (The read happens after `_exclusive_file_lock` has opened the lock
path with mode `"w"`, which the model makes explicit with `truncateAt`.) -/
theorem post_increment_returns_persisted (fs : FS) (p : PyPath) :
    (postIncrement fs p).2.1
        = readCounterVal (truncateAt fs (lockPathOf p)) p + 1 ∧
    readCounterVal (postIncrement fs p).1 p = (postIncrement fs p).2.1 := by
  constructor
  · rfl
  · unfold postIncrement increment
    dsimp only
    rw [readCounterVal_after_write]

/-- Claim C3: writing the value `v` and then reading with no intervening
writes yields exactly `v` (and emits no warning). -/
theorem write_read_roundtrip (fs : FS) (p : PyPath) (v : Int) :
    readCounterFull (writeCounter fs p v) p = (v, []) :=
  read_after_write fs p v

/-- Claim C4: reading a counter path that does not exist yields 0, raises no
error, and logs nothing. -/
theorem read_missing_returns_zero (fs : FS) (p : PyPath) (h : fs p = none) :
    readCounterFull fs p = (0, []) := by
  unfold readCounterFull
  rw [h]

/-- Witness for C4 at the default counter path over the empty filesystem. -/
theorem read_missing_returns_zero_witness :
    readCounterFull fsEmpty dataCounterPath = (0, []) :=
  read_missing_returns_zero fsEmpty dataCounterPath rfl

/-- Counterexample to claim C5 as stated: the existing counter file
`{"counter": "7"}` has a non-integer `counter` field, yet `_read_counter`
returns 7 — not 0 — and logs no warning at all, because Python `int()`
converts the string. -/
theorem read_string_counter_not_zero :
    readCounterVal c5fs dataCounterPath = 7 ∧
    readCounterVal c5fs dataCounterPath ≠ 0 ∧
    (readCounterFull c5fs dataCounterPath).2 = [] :=
  ⟨by decide, by decide, by decide⟩

/-- Claim C5 (amended): `_read_counter` on an existing file returns 0 with a
logged `read_failed` warning (carrying the path and the error) when the file
is malformed JSON, is not a JSON object, or has a `counter` field that
`int()` rejects; it returns 0 silently when the object lacks the `counter`
field; and it returns the converted integer silently when `int()` accepts the
field.  Formally, the read agrees everywhere with `readResultSpec`, which
spells out exactly that case analysis. -/
theorem read_matches_failopen_spec (fs : FS) (p : PyPath) :
    readCounterFull fs p = readResultSpec p (fs p) :=
  read_eq_spec fs p

/-- Claim C6: `_exclusive_file_lock` releases the lock and closes the handle
on every exit path — whether the body returns normally or raises — and
propagates the body's outcome unchanged. -/
theorem lock_released_on_every_exit_path {α : Type} (body : BodyOutcome α) :
    (exclusiveFileLockRun body).1 = body ∧
    ((exclusiveFileLockRun body).2.foldl applyLockAction ⟨false, false⟩).locked
        = false ∧
    ((exclusiveFileLockRun body).2.foldl applyLockAction ⟨false, false⟩).isOpen
        = false :=
  ⟨rfl, rfl, rfl⟩

/-- Counterexample to claim C7 as stated: for the counter path
`/data/counter.tmp`, the derived temporary path is the counter path itself,
so opening the temporary file truncates the real target before the document
is written: the pre-replace content changes from `{"counter": 5}` to an
empty (truncated) file, and a reader at the intermediate stages observes 0
and then 9 instead of the original 5. -/
theorem write_clobbers_target_when_tmp_is_target :
    tmpPathOf tmpSelfPath = tmpSelfPath ∧
    c7fs tmpSelfPath = some (counterDoc 5) ∧
    writeStage c7fs tmpSelfPath 9 1 tmpSelfPath = some .truncated ∧
    readCounterVal c7fs tmpSelfPath = 5 ∧
    readCounterVal (writeStage c7fs tmpSelfPath 9 1) tmpSelfPath = 0 ∧
    readCounterVal (writeStage c7fs tmpSelfPath 9 2) tmpSelfPath = 9 :=
  ⟨by decide, rfl, rfl, by decide, by decide, by decide⟩

/-- Claim C7 (amended): provided the derived temporary path differs from the
target — i.e. the counter path's own extension is not `.tmp` — `_write_counter`
never creates or modifies the target before the replace step: at every stage
before the rename the target's content (and hence any concurrent read of it)
is unchanged, and after the rename the target holds the complete new
document. -/
theorem write_atomic_until_replace (fs : FS) (p : PyPath) (v : Int)
    (h : tmpPathOf p ≠ p) :
    (∀ k, k < 3 → writeStage fs p v k p = fs p) ∧
    (∀ k, k < 3 → readCounterVal (writeStage fs p v k) p = readCounterVal fs p) ∧
    writeStage fs p v 3 = writeCounter fs p v ∧
    readCounterVal (writeStage fs p v 3) p = v := by
  have hstage : ∀ k, k < 3 → writeStage fs p v k p = fs p := by
    intro k hk
    have h3 : k = 0 ∨ k = 1 ∨ k = 2 := by omega
    rcases h3 with rfl | rfl | rfl
    · rfl
    · show (if p = tmpPathOf p then some FileContent.truncated else fs p) = fs p
      rw [if_neg (fun hh => h hh.symm)]
    · show (if p = tmpPathOf p then some (counterDoc v) else fs p) = fs p
      rw [if_neg (fun hh => h hh.symm)]
  refine ⟨hstage, ?_, rfl, ?_⟩
  · intro k hk
    unfold readCounterVal
    rw [readCounterFull_congr p (hstage k hk)]
  · show readCounterVal (writeCounter fs p v) p = v
    exact readCounterVal_after_write fs p v

/-- Witness for the amended C7 at the default counter path: stage 2 (the
moment just before the replace) leaves the target untouched. -/
theorem write_atomic_until_replace_witness :
    writeStage fsEmpty dataCounterPath 1 2 dataCounterPath
      = fsEmpty dataCounterPath :=
  (write_atomic_until_replace fsEmpty dataCounterPath 1 (by decide)).1 2 (by decide)

/-- Claim C8: the lock handle path lies in the same directory as the counter
file, its extension is the fixed `.lock`, and its stem is the counter file's
stem — i.e. it is obtained by replacing the counter file's extension with
`.lock`. -/
theorem lock_path_same_dir_lock_extension (p : PyPath) (h : p.name ≠ "") :
    (lockPathOf p).parent = p.parent ∧
    nameSuffixS (lockPathOf p).name = ".lock" ∧
    nameStemS (lockPathOf p).name = nameStemS p.name := by
  obtain ⟨parent, name⟩ := p
  obtain ⟨l⟩ := name
  have hl : l ≠ [] := by
    intro hnil
    subst hnil
    exact h rfl
  have hmaster : splitName (withSuffixName l ('.' :: ['l', 'o', 'c', 'k']))
      = ((splitName l).1, '.' :: ['l', 'o', 'c', 'k']) :=
    splitName_withSuffixName l ['l', 'o', 'c', 'k'] hl (by decide) (by decide)
  refine ⟨rfl, ?_, ?_⟩
  · show String.mk (splitName (withSuffixName l ('.' :: ['l', 'o', 'c', 'k']))).2
        = ".lock"
    rw [hmaster]
  · show String.mk (splitName (withSuffixName l ('.' :: ['l', 'o', 'c', 'k']))).1
        = String.mk (splitName l).1
    rw [hmaster]

/-- Witness for C8 at the default counter path `/data/counter.json`. -/
theorem lock_path_same_dir_lock_extension_witness :
    (lockPathOf dataCounterPath).parent = dataCounterPath.parent ∧
    nameSuffixS (lockPathOf dataCounterPath).name = ".lock" ∧
    nameStemS (lockPathOf dataCounterPath).name = nameStemS dataCounterPath.name :=
  lock_path_same_dir_lock_extension dataCounterPath (by decide)

/-- Counterexample to claim C9 as stated: with the counter file containing
`{"counter": -5}`, `_read_counter` returns the negative value -5 and the
increment persists and returns -4. -/
theorem read_returns_negative_counter :
    readCounterVal c9fs dataCounterPath = -5 ∧
    ¬ 0 ≤ readCounterVal c9fs dataCounterPath ∧
    (postIncrement c9fs dataCounterPath).2.1 = -4 ∧
    ¬ 0 ≤ (postIncrement c9fs dataCounterPath).2.1 :=
  ⟨by decide, by decide, by decide, by decide⟩

/-- Claim C9 (amended): the counter is non-negative in every state the
service itself can produce.  Whenever the stored content does not already
carry a negative `counter` (in particular when the file is absent, is
unreadable, or was written by the service from such a state), the read
returns a non-negative value, the increment returns a value at least 1, and
the content it persists again carries a non-negative counter — but a file
that externally contains a negative integer is returned as-is, which is what
the counterexample exhibits. -/
theorem counter_nonneg_when_content_nonneg (fs : FS) (p : PyPath)
    (h : contentCounterNonneg (fs p)) :
    0 ≤ readCounterVal fs p ∧
    1 ≤ (postIncrement fs p).2.1 ∧
    contentCounterNonneg ((postIncrement fs p).1 p) := by
  have h2 : contentCounterNonneg (truncateAt fs (lockPathOf p) p) := by
    unfold truncateAt
    by_cases hq : p = lockPathOf p
    · rw [if_pos hq]
      trivial
    · rw [if_neg hq]
      exact h
  have hr2 : 0 ≤ readCounterVal (truncateAt fs (lockPathOf p)) p :=
    read_nonneg_of_content _ _ h2
  refine ⟨read_nonneg_of_content fs p h, ?_, ?_⟩
  · show 1 ≤ readCounterVal (truncateAt fs (lockPathOf p)) p + 1
    linarith
  · show contentCounterNonneg
        (writeCounter (truncateAt fs (lockPathOf p)) p
          (readCounterVal (truncateAt fs (lockPathOf p)) p + 1) p)
    unfold writeCounter
    rw [if_pos rfl]
    show (0 : Int) ≤ readCounterVal (truncateAt fs (lockPathOf p)) p + 1
    linarith

/-- Witness for the amended C9 over the empty filesystem at the default
counter path. -/
theorem counter_nonneg_when_content_nonneg_witness :
    0 ≤ readCounterVal fsEmpty dataCounterPath ∧
    1 ≤ (postIncrement fsEmpty dataCounterPath).2.1 ∧
    contentCounterNonneg ((postIncrement fsEmpty dataCounterPath).1 dataCounterPath) :=
  counter_nonneg_when_content_nonneg fsEmpty dataCounterPath trivial

/-- Claim C10: when an existing counter file is a JSON object whose `counter`
field Python `int()` can convert, `_read_counter` returns the converted
integer with no warning (booleans read as 0/1, floats truncate toward zero,
digit strings parse), and it falls back to the logged-warning-and-0 path
exactly when `int()` rejects the value. -/
theorem read_converts_counter_field (fs : FS) (p : PyPath)
    (kvs : List (String × JVal)) (jv : JVal)
    (hfs : fs p = some (.json (.obj kvs)))
    (hget : jget kvs "counter" = some jv) :
    (∀ n, pyIntExc jv = .ok n → readCounterFull fs p = (n, [])) ∧
    (∀ e, pyIntExc jv = .error e → readCounterFull fs p = (0, [.readFailed p e])) ∧
    (∀ b, jv = .bool b → pyIntExc jv = .ok (if b then 1 else 0)) ∧
    (∀ q, jv = .num q → pyIntExc jv = .ok (truncRat q)) ∧
    (∀ s n, jv = .str s → pyIntOfStr s = some n → pyIntExc jv = .ok n) := by
  have hread : ∀ r, pyIntExc jv = r → readCounterAttempt (.json (.obj kvs)) = r := by
    intro r hr
    unfold readCounterAttempt
    simp only [jsonLoad, getCounterField, hget, Option.getD]
    exact hr
  refine ⟨?_, ?_, ?_, ?_, ?_⟩
  · intro n hn
    have hr := hread _ hn
    unfold readCounterFull
    rw [hfs]
    simp [hr]
  · intro e he
    have hr := hread _ he
    unfold readCounterFull
    rw [hfs]
    simp [hr]
  · intro b hb; subst hb; rfl
  · intro q hq; subst hq; rfl
  · intro s n hs hn
    subst hs
    simp [pyIntExc, hn]

/-- Witness for C10: `{"counter": "42"}` reads as 42, `{"counter": true}`
reads as 1, and `{"counter": 3.9}` reads as 3, all without warnings. -/
theorem read_converts_counter_field_witness :
    readCounterFull c10fs ⟨"/data", "a.json"⟩ = (42, []) ∧
    readCounterFull c10fs ⟨"/data", "b.json"⟩ = (1, []) ∧
    readCounterFull c10fs ⟨"/data", "c.json"⟩ = (3, []) := by
  refine ⟨?_, ?_, ?_⟩
  · exact (read_converts_counter_field c10fs ⟨"/data", "a.json"⟩ _ (.str "42")
      rfl rfl).1 42 rfl
  · exact (read_converts_counter_field c10fs ⟨"/data", "b.json"⟩ _ (.bool true)
      rfl rfl).1 1 rfl
  · exact (read_converts_counter_field c10fs ⟨"/data", "c.json"⟩ _ (.num (mkRat 39 10))
      rfl rfl).1 3 rfl

/-- Claim C1 (amended): for every initial value `V0` and every interleaving
of `N` increments spread over any number of processes sharing the counter
path and its derived lock path, the final persisted value is `V0 + N` —
provided the derived lock path differs from the counter path (i.e. the
counter file's own extension is not `.lock`).  Without that proviso the claim
fails, because entering the critical section opens the lock path with mode
`"w"` and thereby truncates the counter file itself. -/
theorem no_lost_updates {P : Nat} (path : PyPath) (V0 : Int) (N : Nat)
    (n : Fin P → Nat) (s0 sF : SysState P)
    (hlk : lockPathOf path ≠ path)
    (h0fs : readCounterVal s0.fs path = V0)
    (h0lock : s0.lockHolder = none)
    (h0procs : ∀ p, s0.procs p = .idle (n p))
    (hN : ∑ p, n p = N)
    (hreach : Reachable path s0 sF)
    (hterm : ∀ p, sF.procs p = .idle 0) :
    readCounterVal sF.fs path = V0 + N := by
  have h0 : IncrInv path (V0 + N) s0 := by
    refine ⟨?_, ?_, ?_⟩
    · rw [h0fs]
      have hps : pendingSum s0.procs = (N : Int) := by
        unfold pendingSum
        calc ∑ q, pendingOf (s0.procs q) = ∑ q, ((n q : Nat) : Int) :=
              Finset.sum_congr rfl (fun q _ => by rw [h0procs q]; rfl)
          _ = ((∑ q, n q : Nat) : Int) := (Nat.cast_sum Finset.univ n).symm
          _ = (N : Int) := by rw [hN]
      rw [hps]
    · intro q hq
      rw [h0procs q] at hq
      exact absurd hq (by simp [inCS])
    · intro q r v h'
      rw [h0procs q] at h'
      exact absurd h' (by simp)
  have hF := inv_reachable hlk h0 hreach
  have hsum := hF.sum_eq
  have hz : pendingSum sF.procs = 0 := by
    unfold pendingSum
    calc ∑ q, pendingOf (sF.procs q) = ∑ q, (0 : Int) :=
          Finset.sum_congr rfl (fun q _ => by rw [hterm q]; rfl)
      _ = 0 := Finset.sum_const_zero
  linarith

/-- Witness for the amended C1: one process performs one increment starting
from the empty filesystem at `/data/counter.json`; the run
acquire-read-write-release ends with the persisted value 0 + 1. -/
theorem no_lost_updates_witness :
    readCounterVal cwS4.fs dataCounterPath = 0 + ((1 : Nat) : Int) := by
  apply no_lost_updates dataCounterPath 0 1 (fun _ => 1) cwS0 cwS4
  · decide
  · rfl
  · rfl
  · intro p; rfl
  · decide
  · refine Relation.ReflTransGen.head (Step.acquire cwS0 0 0 (by decide) rfl) ?_
    refine Relation.ReflTransGen.head (Step.readv cwS1 0 1 (by decide)) ?_
    refine Relation.ReflTransGen.head (Step.writev cwS2 0 0 0 (by decide)) ?_
    exact Relation.ReflTransGen.single (Step.release cwS3 0 0 (by decide) rfl)
  · decide

/-- Counterexample to claim C1 as stated: with the counter file named
`/data/counter.lock`, the derived lock path is the counter path itself.  A
single increment from the initial value 5 runs acquire (which truncates the
counter file), read (obtaining 0), write, release — a complete, terminated
execution of the protocol — and leaves the persisted value at 1, not 5 + 1. -/
theorem lost_update_when_counter_path_has_lock_extension :
    lockPathOf lockySelfPath = lockySelfPath ∧
    readCounterVal dC0.fs lockySelfPath = 5 ∧
    dC0.lockHolder = none ∧
    dC0.procs 0 = .idle 1 ∧
    Reachable lockySelfPath dC0 dC4 ∧
    dC4.procs 0 = .idle 0 ∧
    dC4.lockHolder = none ∧
    readCounterVal dC4.fs lockySelfPath = 1 ∧
    (1 : Int) ≠ 5 + 1 := by
  refine ⟨by decide, by decide, rfl, by decide, ?_, by decide, rfl, by decide, by decide⟩
  refine Relation.ReflTransGen.head (Step.acquire dC0 0 0 (by decide) rfl) ?_
  refine Relation.ReflTransGen.head (Step.readv dC1 0 1 (by decide)) ?_
  refine Relation.ReflTransGen.head (Step.writev dC2 0 0 0 (by decide)) ?_
  exact Relation.ReflTransGen.single (Step.release dC3 0 0 (by decide) rfl)
